import Mathlib

/-!
Shallow embedding of the trend-harvesting and classification pipeline of this
repository (`trend_harvester.py` and `trend_api_endpoints.py`), together with
theorems settling the behavioural claims about it.

Modelling conventions:
* Python strings are `List Char` (`Str`); `str s` embeds a Lean string literal.
* Python floats that only ever hold exact decimal constants and ratios of
  integers are modelled as `Rat`.
* SQLite stores values dynamically; a column holds a `Val` (`null`, integer or
  text).  The `runs` table is a list of `RunRow`, the artifact tables are lists
  of tuples, and the whole database is a `DB` value threaded through the
  operations.
* Library and network calls (requests, BeautifulSoup, urllib, pytrends,
  sklearn) are modelled as oracle fields of an `Env` record returning
  `Except Str _` — an `error` models the call raising an exception.  All code
  written in the repository itself is translated directly.
-/

/-- Python strings are modelled as lists of characters. -/
abbrev Str := List Char

/-- Embed a Lean string literal as a character list. -/
def str (s : String) : Str := s.data

/-- Python whitespace characters (ASCII fragment), as used by `str.strip`,
`str.split()` and the regex class in `re.sub` patterns. -/
def isPySpace (c : Char) : Bool :=
  c == ' ' || c == '\t' || c == '\n' || c == '\r' || c == '\x0b' || c == '\x0c'

/-- Python `s.strip()`: drop whitespace from both ends. -/
def pyStrip (s : Str) : Str :=
  ((s.dropWhile isPySpace).reverse.dropWhile isPySpace).reverse

/-- Python `s.lower()` (ASCII case folding). -/
def lowerStr (s : Str) : Str := s.map Char.toLower

/-- Word characters of the regex class used implicitly by the word boundary
assertion in the token pattern of `trend_harvester.py` (ASCII fragment). -/
def isWordChar (c : Char) : Bool := c.isAlpha || c.isDigit || c == '_'

/-- Maximal runs of word characters of a string; the accumulator holds the
current run reversed.  Used to model `re.findall` with a word-boundary
delimited pattern: a match can only be a full maximal word-character run. -/
def wordRunsAux : Str → Str → List Str
  | [], acc => if acc.isEmpty then [] else [acc.reverse]
  | c :: cs, acc =>
    if isWordChar c then wordRunsAux cs (c :: acc)
    else if acc.isEmpty then wordRunsAux cs []
    else acc.reverse :: wordRunsAux cs []

/-- Whether a maximal word-character run matches the token pattern
`[a-zA-Z][a-zA-Z0-9]{2,}` of `trend_harvester.py` in full (length at least 3,
leading letter, no underscore). -/
def tokenOk (run : Str) : Bool :=
  decide (3 ≤ run.length) &&
    (match run with
     | [] => false
     | c :: _ => c.isAlpha) &&
    run.all fun c => c.isAlpha || c.isDigit

/-- Model of `re.findall(r'\b[a-zA-Z][a-zA-Z0-9]{2,}\b', text.lower())`: a
match of that pattern is exactly a maximal word-character run that matches the
core pattern in full, because both word boundaries must fall at the edges of a
run. -/
def findTokens (s : Str) : List Str :=
  (wordRunsAux (lowerStr s) []).filter tokenOk

/-- Python `s.split()` — split on runs of whitespace, no empty parts. -/
def splitWsAux : Str → Str → List Str
  | [], acc => if acc.isEmpty then [] else [acc.reverse]
  | c :: cs, acc =>
    if isPySpace c then
      if acc.isEmpty then splitWsAux cs [] else acc.reverse :: splitWsAux cs []
    else splitWsAux cs (c :: acc)

/-- Python `s.split()`. -/
def splitWs (s : Str) : List Str := splitWsAux s []

/-- Distinct elements of a list keeping the first occurrence of each, in
order — the iteration order of a Python `dict` built by repeated insertion,
and the element order of `set(...)` as far as membership is concerned. -/
def firstOccsAux : List Str → List Str → List Str
  | [], _ => []
  | w :: ws, seen => if w ∈ seen then firstOccsAux ws seen else w :: firstOccsAux ws (w :: seen)

/-- Distinct elements of a list, first occurrences kept in order. -/
def firstOccs (l : List Str) : List Str := firstOccsAux l []

/-- Python `needle in hay` substring containment. -/
def containsSub (hay needle : Str) : Bool :=
  (List.range (hay.length + 1)).any fun i => needle.isPrefixOf (hay.drop i)

/-- The basic English stopword fallback set of `KeywordExtractor.__init__`
(used when NLTK is unavailable). -/
def basicStopwords : List Str :=
  [str "i", str "me", str "my", str "myself", str "we", str "our", str "ours",
   str "ourselves", str "you", str "your", str "yours", str "yourself",
   str "yourselves", str "he", str "him", str "his", str "himself", str "she",
   str "her", str "hers", str "herself", str "it", str "its", str "itself",
   str "they", str "them", str "their", str "theirs", str "themselves",
   str "what", str "which", str "who", str "whom", str "this", str "that",
   str "these", str "those", str "am", str "is", str "are", str "was",
   str "were", str "be", str "been", str "being", str "have", str "has",
   str "had", str "having", str "do", str "does", str "did", str "doing",
   str "a", str "an", str "the", str "and", str "but", str "if", str "or",
   str "because", str "as", str "until", str "while", str "of", str "at",
   str "by", str "for", str "with", str "through", str "during", str "before",
   str "after", str "above", str "below", str "up", str "down", str "in",
   str "out", str "on", str "off", str "over", str "under", str "again",
   str "further", str "then", str "once"]

/-- The custom web-boilerplate stopwords of `KeywordExtractor.__init__`. -/
def customStopwords : List Str :=
  [str "http", str "https", str "www", str "com", str "org", str "net",
   str "html", str "page", str "site", str "click", str "here", str "more",
   str "read", str "see", str "view", str "get", str "new", str "latest"]

/-- The combined stopword set (`all_stopwords`) in the NLTK-unavailable
configuration; membership is all that matters. -/
def fallbackStopwords : List Str := basicStopwords ++ customStopwords

/-- Tokens of the text that survive the stopword filter of
`_extract_with_frequency`. -/
def filteredWords (stop : List Str) (text : Str) : List Str :=
  (findTokens text).filter fun w => decide (w ∉ stop)

/-- Frequency table `word_freq.items()` of `_extract_with_frequency`: one pair
per distinct word in first-occurrence (dict insertion) order, with its count. -/
def freqPairs (ws : List Str) : List (Str × Nat) :=
  (firstOccs ws).map fun w => (w, ws.count w)

/-- Descending-count ordering used by
`sorted(word_freq.items(), key=lambda x: x[1], reverse=True)`. -/
def byFreqDesc : Str × Nat → Str × Nat → Prop := fun a b => b.2 ≤ a.2

instance : DecidableRel byFreqDesc := fun a b => inferInstanceAs (Decidable (b.2 ≤ a.2))

instance : IsTotal (Str × Nat) byFreqDesc := ⟨fun a b => le_total b.2 a.2⟩

instance : IsTrans (Str × Nat) byFreqDesc :=
  ⟨fun _ _ _ h1 h2 => le_trans h2 h1⟩

/-- Descending-score ordering on `(term, score)` pairs, used by the TF-IDF
path and by the `ORDER BY score DESC` retrieval query. -/
def byScoreDesc : Str × Rat → Str × Rat → Prop := fun a b => b.2 ≤ a.2

instance : DecidableRel byScoreDesc := fun a b => inferInstanceAs (Decidable (b.2 ≤ a.2))

instance : IsTotal (Str × Rat) byScoreDesc := ⟨fun a b => le_total b.2 a.2⟩

instance : IsTrans (Str × Rat) byScoreDesc :=
  ⟨fun _ _ _ h1 h2 => le_trans h2 h1⟩

/-- The normalization base `sorted_words[0][1] if sorted_words else 1` of
`_extract_with_frequency`. -/
def maxFreqOf : List (Str × Nat) → Nat
  | [] => 1
  | p :: _ => p.2

/-- One iteration of the score loop of `_extract_with_frequency`: normalize
the count by the top count and keep the entry when the score clears the 0.05
threshold. -/
def freqScoreEntry (maxFreq : Nat) (p : Str × Nat) : Option (Str × Rat) :=
  if mkRat 1 20 < mkRat p.2 maxFreq then some (p.1, mkRat p.2 maxFreq) else none

/-- `KeywordExtractor._extract_with_frequency`: tokenize, drop stopwords,
count, sort by descending count (Python `sorted` is stable, as is
`List.insertionSort`), keep the first `max_features` entries, normalize by the
top count and keep scores above the 0.05 threshold. -/
def extractWithFrequency (stop : List Str) (text : Str) (maxFeatures : Nat) :
    List (Str × Rat) :=
  ((List.insertionSort byFreqDesc (freqPairs (filteredWords stop text))).take
      maxFeatures).filterMap
    (freqScoreEntry
      (maxFreqOf (List.insertionSort byFreqDesc (freqPairs (filteredWords stop text)))))

/-- `KeywordExtractor._extract_with_tfidf` after the vectorizer returned the
`(feature, score)` pairs (modelled as oracle data): sort descending by score,
keep the first `max_features`, keep scores above the 0.01 threshold. -/
def extractWithTfidf (pairs : List (Str × Rat)) (maxFeatures : Nat) :
    List (Str × Rat) :=
  ((List.insertionSort byScoreDesc pairs).take maxFeatures).filterMap fun p =>
    if mkRat 1 100 < p.2 then some p else none

/-- `KeywordExtractor.extract_keywords`: empty result for empty or short
(stripped length below 50) text; otherwise the TF-IDF path when sklearn is
available and the vectorizer does not raise, and the frequency fallback
otherwise. -/
def extract_keywords (stop : List Str) (sklearnAvailable : Bool)
    (tfidf : Except Str (List (Str × Rat))) (text : Str) (maxFeatures : Nat) :
    List (Str × Rat) :=
  if text = [] ∨ (pyStrip text).length < 50 then []
  else if sklearnAvailable then
    match tfidf with
    | .ok pairs => extractWithTfidf pairs maxFeatures
    | .error _ => extractWithFrequency stop text maxFeatures
  else extractWithFrequency stop text maxFeatures

/-- The canonical static category table `CategoryResolver.CATEGORY_MAPPINGS`:
name, Google-Trends taxonomy id, YouTube category id. -/
def CATEGORY_MAPPINGS : List (Str × Int × Str) :=
  [(str "Arts & Entertainment", 3, str "24"),
   (str "Autos & Vehicles", 47, str "2"),
   (str "Beauty & Fitness", 44, str "26"),
   (str "Books & Literature", 22, str "27"),
   (str "Business & Industrial", 12, str "28"),
   (str "Computers & Electronics", 5, str "28"),
   (str "Finance", 7, str "28"),
   (str "Food & Drink", 71, str "26"),
   (str "Games", 8, str "20"),
   (str "Health", 45, str "26"),
   (str "Hobbies & Leisure", 65, str "24"),
   (str "Home & Garden", 11, str "26"),
   (str "Internet & Telecom", 13, str "28"),
   (str "Jobs & Education", 958, str "27"),
   (str "Law & Government", 19, str "25"),
   (str "News", 16, str "25"),
   (str "People & Society", 14, str "22"),
   (str "Pets & Animals", 66, str "15"),
   (str "Real Estate", 29, str "28"),
   (str "Reference", 533, str "27"),
   (str "Science", 174, str "28"),
   (str "Shopping", 18, str "22"),
   (str "Sports", 20, str "17"),
   (str "Travel", 67, str "19")]

/-- The static-table fallback value of `trends_categories` installed by
`_load_api_categories` when the external lookup raises: category name mapped
to its trends id, in table order. -/
def staticTrendsCategories : List (Str × Int) :=
  CATEGORY_MAPPINGS.map fun p => (p.1, p.2.1)

/-- One iteration of the keyword-overlap loop of `resolve_trends_category`:
the state is `(best_match, best_score, best_id)`; compute word-set overlap
between the text words and the lower-cased category-name words, score it as
overlap over the larger word-set size, and keep the strictly better match. -/
def scanStep (textWords : List Str) (st : Option Str × Rat × Int)
    (cat : Str × Int) : Option Str × Rat × Int :=
  let catWords := firstOccs (splitWs (lowerStr cat.1))
  let overlap := (textWords.filter fun w => decide (w ∈ catWords)).length
  if 0 < overlap then
    let score : Rat := mkRat overlap (max textWords.length catWords.length)
    if st.2.1 < score then (some cat.1, score, cat.2) else st
  else st

/-- The whole keyword-overlap loop of `resolve_trends_category`, started from
`(None, 0.0, 16)`. -/
def overlapScan (cats : List (Str × Int)) (textWords : List Str) :
    Option Str × Rat × Int :=
  cats.foldl (scanStep textWords) (none, 0, 16)

/-- Python `any(word in text for word in family)`. -/
def containsAnyWord (text : Str) (family : List Str) : Bool :=
  family.any fun w => containsSub text w

/-- The tech keyword family of the `resolve_trends_category` fallback. -/
def techFamily : List Str :=
  [str "tech", str "software", str "ai", str "computer", str "digital"]

/-- The business keyword family of the `resolve_trends_category` fallback. -/
def businessFamily : List Str :=
  [str "business", str "marketing", str "finance", str "investment"]

/-- The health keyword family of the `resolve_trends_category` fallback. -/
def healthFamily : List Str :=
  [str "health", str "medical", str "fitness", str "wellness"]

/-- The food keyword family of the `resolve_trends_category` fallback. -/
def foodFamily : List Str :=
  [str "food", str "recipe", str "restaurant", str "cooking"]

/-- Whether any of the four fallback keyword families matches the (lowered)
text by substring containment. -/
def familyMatch (textLower : Str) : Bool :=
  containsAnyWord textLower techFamily || containsAnyWord textLower businessFamily ||
    containsAnyWord textLower healthFamily || containsAnyWord textLower foodFamily

/-- `CategoryResolver.resolve_trends_category`, parameterized by the loaded
`trends_categories` list (the static table when the external load failed).
Returns `(category_name, category_id, confidence_score)`. -/
def resolve_trends_category (cats : List (Str × Int)) (text : Str) :
    Str × Int × Rat :=
  if text = [] ∨ cats = [] then (str "News", 16, 0)
  else if (overlapScan cats (firstOccs (splitWs (lowerStr text)))).2.1 < mkRat 3 10 then
    if containsAnyWord (lowerStr text) techFamily then
      (str "Computers & Electronics", 5, mkRat 3 5)
    else if containsAnyWord (lowerStr text) businessFamily then
      (str "Business & Industrial", 12, mkRat 3 5)
    else if containsAnyWord (lowerStr text) healthFamily then
      (str "Health", 45, mkRat 3 5)
    else if containsAnyWord (lowerStr text) foodFamily then
      (str "Food & Drink", 71, mkRat 3 5)
    else (str "News", 16, mkRat 2 5)
  else
    ((overlapScan cats (firstOccs (splitWs (lowerStr text)))).1.getD (str "News"),
     (overlapScan cats (firstOccs (splitWs (lowerStr text)))).2.2,
     (overlapScan cats (firstOccs (splitWs (lowerStr text)))).2.1)

/-- `CategoryResolver.resolve_youtube_category`: static-table lookup with a
keyword fallback defaulting to Entertainment. -/
def resolve_youtube_category (categoryName : Str) : Str :=
  match (CATEGORY_MAPPINGS.lookup categoryName) with
  | some p => p.2
  | none =>
    let nameLower := lowerStr categoryName
    if containsAnyWord nameLower [str "tech", str "computer", str "science"] then str "28"
    else if containsAnyWord nameLower [str "game", str "gaming"] then str "20"
    else if containsAnyWord nameLower [str "music", str "entertainment"] then str "24"
    else if containsAnyWord nameLower [str "news", str "politics"] then str "25"
    else if containsAnyWord nameLower [str "sport", str "fitness"] then str "17"
    else str "24"

/-- Collapse runs of whitespace to single spaces: the in-source cleanup
`re.sub(r'\s+', ' ', main_content)`.  The flag records whether the previous
character was whitespace (already emitted as one space). -/
def collapseWsAux : Str → Bool → Str
  | [], _ => []
  | c :: cs, inRun =>
    if isPySpace c then
      if inRun then collapseWsAux cs true else ' ' :: collapseWsAux cs true
    else c :: collapseWsAux cs false

/-- One-space whitespace normalization, `re.sub(r'\s+', ' ', s)`. -/
def collapseWs (s : Str) : Str := collapseWsAux s false

/-- `ContentExtractor.extract_content`: the HTTP fetch and the BeautifulSoup
content selection are library calls, modelled as oracles that either raise or
return; the in-source tail normalizes whitespace, strips, and truncates to
10000 characters; any raised exception yields the empty string. -/
def extract_content (fetch soupText : Str → Except Str Str) (url : Str) : Str :=
  match fetch url with
  | .error _ => []
  | .ok html =>
    match soupText html with
    | .error _ => []
    | .ok mainContent => (pyStrip (collapseWs mainContent)).take 10000

/-- The industry keyword dictionary of
`_analyze_url_for_business_intelligence`, in source order. -/
def industryKeywords : List (Str × List Str) :=
  [(str "roofing",
    [str "roofing services", str "roof repair", str "roof installation",
     str "roofing contractor", str "storm damage repair",
     str "residential roofing", str "commercial roofing",
     str "roof replacement", str "roof maintenance", str "gutter services",
     str "emergency roof repair"]),
   (str "dental",
    [str "dental services", str "dentist", str "oral health",
     str "dental care", str "teeth cleaning", str "dental implants",
     str "orthodontics", str "cosmetic dentistry", str "preventive care"]),
   (str "law",
    [str "legal services", str "attorney", str "legal counsel",
     str "litigation", str "legal representation", str "law firm",
     str "legal advice", str "court representation"]),
   (str "medical",
    [str "medical services", str "healthcare", str "medical care",
     str "patient care", str "medical treatment", str "health services",
     str "clinical care"]),
   (str "restaurant",
    [str "restaurant", str "dining", str "food service", str "culinary",
     str "menu", str "cuisine", str "dining experience", str "food quality"]),
   (str "auto",
    [str "automotive services", str "car repair", str "auto maintenance",
     str "vehicle service", str "automotive repair", str "car care"]),
   (str "construction",
    [str "construction services", str "building contractor",
     str "construction company", str "residential construction",
     str "commercial construction"])]

/-- The extra roofing phrases appended for a detected roofing industry. -/
def roofingExtras : List Str :=
  [str "licensed roofing contractors", str "quality workmanship",
   str "customer satisfaction", str "insurance claims assistance",
   str "free estimates", str "warranty protection",
   str "storm damage assessment", str "energy efficient roofing",
   str "local roofing company"]

/-- The extra dental phrases appended for a detected dental industry. -/
def dentalExtras : List Str :=
  [str "family dentistry", str "modern dental technology",
   str "patient comfort", str "dental insurance accepted",
   str "emergency dental care", str "smile transformation"]

/-- The extra law phrases appended for a detected law industry. -/
def lawExtras : List Str :=
  [str "experienced attorneys", str "client advocacy", str "legal expertise",
   str "consultation services", str "case evaluation",
   str "professional representation"]

/-- The generic keyword block used when no industry is detected. -/
def genericBusinessKeywords : List Str :=
  [str "professional services", str "quality service", str "customer focused",
   str "experienced team", str "reliable service", str "business solutions",
   str "customer satisfaction", str "professional expertise"]

/-- Python `s.replace('www.', '')`: remove every (left-to-right,
non-overlapping) occurrence. -/
def replaceWWW : Str → Str
  | 'w' :: 'w' :: 'w' :: '.' :: rest => replaceWWW rest
  | c :: rest => c :: replaceWWW rest
  | [] => []

/-- Python `domain.split('.')[0]`: the prefix before the first dot. -/
def firstDotSegment (s : Str) : Str := s.takeWhile fun c => c ≠ '.'

/-- The cleanup `re.sub(r'[^a-zA-Z\s]', ' ', business_name)` (ASCII). -/
def subNonAlphaSpace (s : Str) : Str :=
  s.map fun c => if c.isAlpha || isPySpace c then c else ' '

/-- Python `s.title()` (ASCII): upper-case a letter that starts a letter run,
lower-case the following letters. -/
def titleCaseAux : Str → Bool → Str
  | [], _ => []
  | c :: cs, prevAlpha =>
    if c.isAlpha then
      (if prevAlpha then c.toLower else c.toUpper) :: titleCaseAux cs true
    else c :: titleCaseAux cs false

/-- Python `s.title()` (ASCII). -/
def titleCase (s : Str) : Str := titleCaseAux s false

/-- Industry detection of `_analyze_url_for_business_intelligence`: the first
dictionary entry one of whose keyword phrases has its first word contained in
the combined domain-and-path text. -/
def detectIndustry (fullText : Str) : Option (Str × List Str) :=
  industryKeywords.find? fun p =>
    p.2.any fun kw => containsSub fullText ((splitWs kw).headD [])

/-- Python `'. '.join(parts)`. -/
def joinDotSpace : List Str → Str
  | [] => []
  | [p] => p
  | p :: rest => p ++ str ". " ++ joinDotSpace rest

/-- Python `' '.join(parts)`. -/
def joinSpace : List Str → Str
  | [] => []
  | [p] => p
  | p :: rest => p ++ [' '] ++ joinSpace rest

/-- `TrendHarvester._analyze_url_for_business_intelligence`: `urlparse` plus
`unquote` are standard-library calls, modelled as an oracle returning the
`(netloc, path)` of the lowered URL or raising; everything after the parse is
in-source string manipulation and is translated directly.  Any exception
yields the fixed generic business paragraph. -/
def analyze_url_for_business_intelligence
    (urlparse : Str → Except Str (Str × Str)) (url : Str) : Str :=
  match urlparse (lowerStr url) with
  | .error _ =>
    str "Professional business services. Quality service provider. Customer satisfaction. Reliable team."
  | .ok (netloc, path) =>
    let domain := replaceWWW netloc
    let businessName := titleCase (subNonAlphaSpace (firstDotSegment domain))
    let fullText := lowerStr (domain ++ [' '] ++ path)
    let baseParts : List Str :=
      match detectIndustry fullText with
      | some ind =>
        [businessName ++ str " Professional Services"] ++ ind.2 ++
          (if ind.1 = str "roofing" then roofingExtras
           else if ind.1 = str "dental" then dentalExtras
           else if ind.1 = str "law" then lawExtras
           else [])
      | none =>
        [businessName ++ str " Professional Services"] ++ genericBusinessKeywords
    let withContact := baseParts ++
      (if containsSub path (str "contact") then
        [str "contact information", str "customer service", str "business location"]
      else [])
    let withAbout := withContact ++
      (if containsSub path (str "about") then
        [str "company information", str "business history", str "team expertise"]
      else [])
    let withServices := withAbout ++
      (if containsSub path (str "services") then
        [str "service offerings", str "professional solutions", str "service quality"]
      else [])
    joinDotSpace withServices ++ ['.']

/-- A dynamically typed SQLite cell: NULL, an integer, or text. -/
inductive Val where
  | null : Val
  | int : Int → Val
  | text : Str → Val
deriving DecidableEq

/-- One row of the `runs` table.  The defaults mirror the schema: every
column nullable, `status` defaulting to `'pending'`. -/
structure RunRow where
  id : Nat
  url : Val := .null
  detected_category_name : Val := .null
  detected_category_id : Val := .null
  youtube_category_id : Val := .null
  started_at : Val := .null
  finished_at : Val := .null
  status : Val := .text (str "pending")
  notes : Val := .null
deriving DecidableEq

/-- One row of the `youtube_videos` table (minus the run id). -/
structure YtRow where
  video_id : Str
  title : Str
  channel : Str
  published_at : Str
  view_count : Int
  like_count : Int
  comment_count : Int
  category_id : Str
deriving DecidableEq

/-- One row of the `news_articles` table (minus the run id). -/
structure NewsRow where
  title : Str
  source : Str
  url : Str
  published_at : Str
  snippet : Str
deriving DecidableEq

/-- The `trend_harvester.db` database: the `runs` table and the five artifact
tables, each artifact row carrying its `run_id`. -/
structure DB where
  runs : List RunRow := []
  page_keywords : List (Nat × Str × Rat) := []
  trends_interest : List (Nat × Str × Str × Int) := []
  trends_related_queries : List (Nat × Str × Str × Str × Int) := []
  youtube_videos : List (Nat × YtRow) := []
  news_articles : List (Nat × NewsRow) := []
deriving DecidableEq

/-- The explicit allow-list of mutable fields of `TrendHarvesterDB.update_run`. -/
def allowedFields : List Str :=
  [str "detected_category_name", str "detected_category_id",
   str "youtube_category_id", str "finished_at", str "status", str "notes"]

/-- Assign one named column of a run row.  Only the six allow-listed columns
are assignable; any other name leaves the row unchanged. -/
def setField (r : RunRow) (f : Str) (v : Val) : RunRow :=
  if f = str "detected_category_name" then { r with detected_category_name := v }
  else if f = str "detected_category_id" then { r with detected_category_id := v }
  else if f = str "youtube_category_id" then { r with youtube_category_id := v }
  else if f = str "finished_at" then { r with finished_at := v }
  else if f = str "status" then { r with status := v }
  else if f = str "notes" then { r with notes := v }
  else r

/-- Apply the allow-list-filtered keyword arguments of `update_run` to one
row, in order. -/
def applyUpdate (r : RunRow) (kwargs : List (Str × Val)) : RunRow :=
  (kwargs.filter fun kv => decide (kv.1 ∈ allowedFields)).foldl
    (fun row kv => setField row kv.1 kv.2) r

/-- `TrendHarvesterDB.update_run`: no-op on empty kwargs; otherwise filter the
kwargs by the allow-list and, when any field survives, patch every row whose
id matches. -/
def update_run (db : DB) (runId : Nat) (kwargs : List (Str × Val)) : DB :=
  if kwargs = [] then db
  else if (kwargs.filter fun kv => decide (kv.1 ∈ allowedFields)) = [] then db
  else
    { db with
      runs := db.runs.map fun r => if r.id = runId then applyUpdate r kwargs else r }

/-- The row id SQLite assigns to the inserted run: one more than the largest
existing row id (`AUTOINCREMENT`). -/
def nextFreshId (db : DB) : Nat :=
  db.runs.foldr (fun r m => max r.id m) 0 + 1

/-- The row inserted by `TrendHarvesterDB.create_run`: the INSERT provides
`url`, `started_at` and status `'running'`; every other column is NULL. -/
def createRunRow (rid : Nat) (url : Str) (now : Int) : RunRow :=
  { id := rid, url := .text url, started_at := .int now,
    status := .text (str "running") }

/-- `TrendHarvesterDB.create_run`: insert the new row and return its assigned
id together with the new database state. -/
def create_run (db : DB) (url : Str) (now : Int) : Nat × DB :=
  let rid := nextFreshId db
  (rid, { db with runs := db.runs ++ [createRunRow rid url now] })

/-- Point lookup of a run row by id (`SELECT * FROM runs WHERE id = ?`). -/
def findRun (db : DB) (rid : Nat) : Option RunRow :=
  db.runs.find? fun r => r.id == rid

/-- `TrendHarvesterDB.save_keywords`: append one `page_keywords` row per
extracted keyword. -/
def save_keywords (db : DB) (rid : Nat) (kws : List (Str × Rat)) : DB :=
  { db with page_keywords := db.page_keywords ++ kws.map fun k => (rid, k.1, k.2) }

/-- The data one pytrends batch call returns (library boundary): the
interest-over-time frame as rows of date and per-keyword values, and the
related-queries dict as keyword to optional rising list of
`(query, value)` rows. -/
structure BatchData where
  interest : List (Str × List (Str × Int))
  related : List (Str × Option (List (Str × Int)))

/-- The `trends_interest` rows one batch inserts: for each frame row and each
batch keyword present in that row, `(run_id, keyword, date, interest)` —
the nested loops of `_analyze_trends`. -/
def batchInterestRows (rid : Nat) (batch : List Str)
    (interest : List (Str × List (Str × Int))) : List (Nat × Str × Str × Int) :=
  (interest.map fun p =>
    batch.filterMap fun kw => (p.2.lookup kw).map fun v => (rid, kw, p.1, v)).flatten

/-- The `trends_related_queries` rows one batch inserts: for each keyword with
a present rising frame, the first 10 rising rows as
`(run_id, base_keyword, query, 'rising', value)`. -/
def batchRelatedRows (rid : Nat)
    (related : List (Str × Option (List (Str × Int)))) :
    List (Nat × Str × Str × Str × Int) :=
  (related.map fun p =>
    match p.2 with
    | some rising => (rising.take 10).map fun q => (rid, p.1, q.1, str "rising", q.2)
    | none => []).flatten

/-- Keyword batches of size 5: `range(0, len(keywords), 5)` slicing. -/
def chunksOf5 : List Str → List (List Str)
  | [] => []
  | [a] => [[a]]
  | [a, b] => [[a, b]]
  | [a, b, c] => [[a, b, c]]
  | [a, b, c, d] => [[a, b, c, d]]
  | a :: b :: c :: d :: e :: rest => [a, b, c, d, e] :: chunksOf5 rest

/-- The batch loop of `_analyze_trends`: the pytrends calls for batch number
`i` are modelled by `envBatch i`; a raised exception for one batch is caught
and the loop continues with the next batch, leaving the database untouched for
that batch only. -/
def analyzeTrendsLoop (envBatch : Nat → Except Str BatchData) (rid : Nat) :
    Nat → List (List Str) → DB → DB
  | _, [], db => db
  | i, batch :: rest, db =>
    match envBatch i with
    | .error _ => analyzeTrendsLoop envBatch rid (i + 1) rest db
    | .ok data =>
      let db1 := { db with
        trends_interest := db.trends_interest ++ batchInterestRows rid batch data.interest }
      let db2 := { db1 with
        trends_related_queries :=
          db1.trends_related_queries ++ batchRelatedRows rid data.related }
      analyzeTrendsLoop envBatch rid (i + 1) rest db2

/-- `TrendHarvester._analyze_trends`: process the keywords in batches of 5.
The `category_id` is only passed through to the external payload builder. -/
def analyze_trends (envBatch : Nat → Except Str BatchData) (rid : Nat)
    (keywords : List Str) (category_id : Int) (db : DB) : DB :=
  analyzeTrendsLoop envBatch rid 0 (chunksOf5 keywords) db

/-- Boolean relations packaged as decidable `Prop` relations for the
retrieval-order sorts. -/
def boolRel (f : α → α → Bool) : α → α → Prop := fun a b => f a b = true

instance (f : α → α → Bool) : DecidableRel (boolRel f) :=
  fun a b => inferInstanceAs (Decidable (f a b = true))

/-- Lexicographic string comparison (strict), used to model SQLite text
ordering of date and timestamp columns. -/
def strLtB : Str → Str → Bool
  | [], [] => false
  | [], _ :: _ => true
  | _ :: _, [] => false
  | a :: as, b :: bs => if a < b then true else if b < a then false else strLtB as bs

/-- Lexicographic string comparison (non-strict). -/
def strLeB (a b : Str) : Bool := !(strLtB b a)

/-- The comprehensive per-run payload assembled by
`TrendHarvesterDB.get_run_results`. -/
structure RunResults where
  run : RunRow
  keywords : List (Str × Rat)
  trends_interest : List (Str × Str × Int)
  related_queries : List (Str × Str × Str × Int)
  youtube_videos : List (Str × Str × Str × Str × Int × Int)
  news_articles : List NewsRow
deriving DecidableEq

/-- `TrendHarvesterDB.get_run_results`: `None` run row gives the empty dict
(modelled as `none`); otherwise assemble the run with its top-10 keywords by
score, the interest series ordered by date, the top-10 rising queries by
value, the top-15 videos by views and the top-25 news by recency. -/
def get_run_results (db : DB) (rid : Nat) : Option RunResults :=
  match findRun db rid with
  | none => none
  | some run =>
    let kwRows := db.page_keywords.filterMap fun r =>
      if r.1 = rid then some (r.2.1, r.2.2) else none
    let tiRows := db.trends_interest.filterMap fun r =>
      if r.1 = rid then some r.2 else none
    let rqRows := db.trends_related_queries.filterMap fun r =>
      if r.1 = rid ∧ r.2.2.2.1 = str "rising" then some r.2 else none
    let ytRows := db.youtube_videos.filterMap fun r =>
      if r.1 = rid then
        some (r.2.video_id, r.2.title, r.2.channel, r.2.published_at,
          r.2.view_count, r.2.like_count)
      else none
    let nwRows := db.news_articles.filterMap fun r =>
      if r.1 = rid then some r.2 else none
    some
      { run := run
        keywords := (List.insertionSort byScoreDesc kwRows).take 10
        trends_interest :=
          (List.insertionSort (boolRel fun a b => strLeB a.1 b.1) tiRows)
        related_queries :=
          ((List.insertionSort (boolRel fun a b : Str × Str × Str × Int => decide (b.2.2.2 ≤ a.2.2.2)) rqRows).take 10)
        youtube_videos :=
          ((List.insertionSort (boolRel fun a b : Str × Str × Str × Str × Int × Int => decide (b.2.2.2.2.1 ≤ a.2.2.2.2.1)) ytRows).take 15)
        news_articles :=
          ((List.insertionSort (boolRel fun a b : NewsRow => strLeB b.published_at a.published_at) nwRows).take 25) }

/-- The JSON payload of `GET /api/trends/runs/id/results` after the endpoint
transformation. -/
structure ApiResults where
  run_id : Nat
  run_url : Val
  run_status : Val
  run_started_at : Val
  run_finished_at : Val
  category_name : Val
  category_trends_id : Val
  category_youtube_id : Val
  keywords : List (Str × Rat)
  trends_interest : List (Str × List (Str × Int))
  rising_queries : List (Str × Str × Str × Int)
  youtube_videos : List (Str × Str × Str × Str × Int × Int)
  news_articles : List NewsRow
deriving DecidableEq

/-- The two responses of the results endpoint: 404 not-found, or the payload. -/
inductive ApiResponse where
  | notFound : ApiResponse
  | payload : ApiResults → ApiResponse
deriving DecidableEq

/-- `_group_trends_by_keyword` of `trend_api_endpoints.py`: group the
interest rows per keyword, keywords in first-appearance order. -/
def groupTrendsByKeyword (rows : List (Str × Str × Int)) :
    List (Str × List (Str × Int)) :=
  (firstOccs (rows.map fun r => r.1)).map fun kw =>
    (kw, rows.filterMap fun r => if r.1 = kw then some (r.2.1, r.2.2) else none)

/-- The `get_run_results` endpoint of `trend_api_endpoints.py`: an empty
result dict (absent run) gives the 404 not-found response; otherwise the
payload transformation. -/
def endpoint_get_run_results (db : DB) (rid : Nat) : ApiResponse :=
  match get_run_results db rid with
  | none => .notFound
  | some res =>
    .payload
      { run_id := res.run.id
        run_url := res.run.url
        run_status := res.run.status
        run_started_at := res.run.started_at
        run_finished_at := res.run.finished_at
        category_name := res.run.detected_category_name
        category_trends_id := res.run.detected_category_id
        category_youtube_id := res.run.youtube_category_id
        keywords := res.keywords.take 10
        trends_interest := groupTrendsByKeyword res.trends_interest
        rising_queries := res.related_queries.take 10
        youtube_videos := res.youtube_videos.take 15
        news_articles := res.news_articles.take 25 }

/-- The environment of one `run_analysis` call: outcomes of every library and
network interaction, configuration flags, the loaded category list, the
stopword set, and the two wall-clock readings.  An `error`/`some` value models
the corresponding call raising an exception with that text. -/
structure Env where
  fetch : Str → Except Str Str
  soupText : Str → Except Str Str
  urlparse : Str → Except Str (Str × Str)
  stopwordList : List Str
  sklearnAvailable : Bool
  tfidfScores : Except Str (List (Str × Rat))
  trendsCategories : List (Str × Int)
  excSaveKeywords : Option Str
  excUpdateCategory : Option Str
  pytrendsAvailable : Bool
  trendsBatch : Nat → Except Str BatchData
  youtubeApiKey : Bool
  newsApiKey : Bool
  createTime : Int
  finishTime : Int

/-- The orchestrator state threaded through one `run_analysis` call: the run
id returned to the caller, the database, the current `runs` row of this run,
and the trace of that row after creation and after each `update_run` touching
it (the trace is instrumentation used to state the lifecycle invariant; it
repeats information already in the database). -/
structure OState where
  runId : Nat
  db : DB
  row : RunRow
  trace : List RunRow

/-- One `update_run` call of the orchestrator on its own run, with the row and
trace kept in step with the database. -/
def orchUpdate (s : OState) (kwargs : List (Str × Val)) : OState :=
  { runId := s.runId
    db := update_run s.db s.runId kwargs
    row := applyUpdate s.row kwargs
    trace := s.trace ++ [applyUpdate s.row kwargs] }

/-- Step 1 of `run_analysis`: direct extraction, falling back to the URL
business-intelligence synthesizer when the extracted content is empty or its
stripped length is below 50. -/
def step1Content (env : Env) (url : Str) : Str :=
  let content := extract_content env.fetch env.soupText url
  if content = [] ∨ (pyStrip content).length < 50 then
    analyze_url_for_business_intelligence env.urlparse url
  else content

/-- Decimal rendering of the classification confidence, standing in for the
Python float format `f'{confidence:.2f}'` (two digits after the point). -/
def fmtConfidence (q : Rat) : Str :=
  let cents := (q * 100 + mkRat 1 2).floor.toNat
  Nat.toDigits 10 (cents / 100) ++ ['.'] ++
    (if cents % 100 < 10 then ['0'] else []) ++ Nat.toDigits 10 (cents % 100)

/-- The completion note written by step 6 of `run_analysis`. -/
def completionNote (conf : Rat) : Str :=
  str "Analysis completed with " ++ fmtConfidence conf ++ str " category confidence"

/-- `TrendHarvester.run_analysis`, as explicit state passing over `Env` and
`DB`.  The shape follows the source: create the run (inserted directly with
status `'running'`); step 1 extracts or synthesizes content; steps 2 and 3
hard-fail the run on missing content or keywords; the two modelled exception
points (the `save_keywords` insert and the classification `update_run`) are
caught by the top-level handler, which marks the run failed with the exception
text and still returns normally; step 4 runs the batch-isolated trends
enrichment when pytrends is available; the YouTube and news stages are no-op
stubs; step 6 marks the run completed with a finish time. -/
def run_analysis (env : Env) (db : DB) (url : Str) : OState :=
  let created := create_run db url env.createTime
  let s0 : OState :=
    { runId := created.1, db := created.2,
      row := createRunRow (nextFreshId db) url env.createTime,
      trace := [createRunRow (nextFreshId db) url env.createTime] }
  let content := step1Content env url
  if content = [] then
    orchUpdate s0 [(str "status", .text (str "failed")),
      (str "notes", .text (str "Could not extract or analyze content"))]
  else
    let kws := extract_keywords env.stopwordList env.sklearnAvailable
      env.tfidfScores content 25
    if kws = [] then
      orchUpdate s0 [(str "status", .text (str "failed")),
        (str "notes", .text (str "No keywords extracted"))]
    else
      match env.excSaveKeywords with
      | some e =>
        orchUpdate s0 [(str "status", .text (str "failed")), (str "notes", .text e)]
      | none =>
        let s1 : OState := { s0 with db := save_keywords s0.db s0.runId kws }
        let categoryText := joinSpace ((kws.take 10).map Prod.fst)
        let rc := resolve_trends_category env.trendsCategories categoryText
        let youtubeId := resolve_youtube_category rc.1
        match env.excUpdateCategory with
        | some e =>
          orchUpdate s1 [(str "status", .text (str "failed")), (str "notes", .text e)]
        | none =>
          let s2 := orchUpdate s1
            [(str "detected_category_name", .text rc.1),
             (str "detected_category_id", .int rc.2.1),
             (str "youtube_category_id", .text youtubeId)]
          let seedKeywords := (kws.take 7).map Prod.fst
          let s3 :=
            if env.pytrendsAvailable then
              { s2 with
                db := analyze_trends env.trendsBatch s2.runId seedKeywords rc.2.1 s2.db }
            else s2
          orchUpdate s3
            [(str "status", .text (str "completed")),
             (str "finished_at", .int env.finishTime),
             (str "notes", .text (completionNote rc.2.2))]

/-- Rank of a run status along the lifecycle
`pending → running → terminal`. -/
def statusRank (v : Val) : Nat :=
  if v = .text (str "pending") then 0
  else if v = .text (str "running") then 1
  else if v = .text (str "completed") ∨ v = .text (str "failed") then 2
  else 0

/-- A terminal run status. -/
def isTerminalStatus (v : Val) : Prop :=
  v = .text (str "completed") ∨ v = .text (str "failed")

instance (v : Val) : Decidable (isTerminalStatus v) :=
  inferInstanceAs (Decidable (_ ∨ _))

/-- The empty database (fresh schema). -/
def emptyDB : DB := {}

/-- A database holding one still-running run, used to exercise the results
endpoint on an unfinished run. -/
def runningDB : DB :=
  { runs := [{ id := 1, url := .text (str "https://example.com"),
               started_at := .int 0, status := .text (str "running") }] }

/-- A concrete page text with seven distinct salient terms of strictly
decreasing frequency, long enough to pass the 50-character threshold. -/
def sampleText : Str :=
  str "alpha alpha alpha alpha alpha alpha alpha bravo bravo bravo bravo bravo bravo charlie charlie charlie charlie charlie delta delta delta delta echo echo echo foxtrot foxtrot golf"

/-- A page text long enough to pass the length threshold whose tokens are all
shorter than three characters, so keyword extraction yields nothing. -/
def shortTokenText : Str :=
  str "aa aa aa aa aa aa aa aa aa aa aa aa aa aa aa aa aa aa aa aa"

/-- A baseline environment: successful fetch, extraction text supplied per
fixture, URL parsing raising, no optional libraries or keys, static category
table, no injected exceptions. -/
def baseEnv (pageText : Str) : Env :=
  { fetch := fun _ => .ok (str "<html>")
    soupText := fun _ => .ok pageText
    urlparse := fun _ => .error (str "parse error")
    stopwordList := fallbackStopwords
    sklearnAvailable := false
    tfidfScores := .error (str "sklearn unavailable")
    trendsCategories := staticTrendsCategories
    excSaveKeywords := none
    excUpdateCategory := none
    pytrendsAvailable := false
    trendsBatch := fun _ => .error (str "pytrends unavailable")
    youtubeApiKey := false
    newsApiKey := false
    createTime := 0
    finishTime := 1 }

/-- An environment whose run fails at the keyword stage: the page text is
long enough but contains no valid token. -/
def noKeywordEnv : Env := baseEnv shortTokenText

/-- An environment raising an exception inside the keyword-persistence call. -/
def saveExcEnv : Env :=
  { baseEnv sampleText with excSaveKeywords := some (str "database is locked") }

/-- An environment for the enrichment-isolation scenario: pytrends available,
the first interest batch raising, the second succeeding with one interest row
and one rising row. -/
def batchEnv : Env :=
  { baseEnv sampleText with
    pytrendsAvailable := true
    trendsBatch := fun i =>
      if i = 1 then
        .ok { interest := [(str "2025-01-01", [(str "foxtrot", 42)])]
              related := [(str "foxtrot", some [(str "foxtrot repair", 90)])] }
      else .error (str "rate limited") }

/-- The seed keywords of step 4 of `run_analysis`: the terms of the top 7
extracted keywords. -/
def seedKeywordsOf (env : Env) (url : Str) : List Str :=
  ((extract_keywords env.stopwordList env.sklearnAvailable env.tfidfScores
    (step1Content env url) 25).take 7).map Prod.fst

theorem pyStrip_length_le (s : Str) : (pyStrip s).length ≤ s.length := by
  unfold pyStrip
  calc (((s.dropWhile isPySpace).reverse.dropWhile isPySpace).reverse).length
      = ((s.dropWhile isPySpace).reverse.dropWhile isPySpace).length :=
        List.length_reverse _
    _ ≤ (s.dropWhile isPySpace).reverse.length :=
        (List.dropWhile_sublist _).length_le
    _ = (s.dropWhile isPySpace).length := List.length_reverse _
    _ ≤ s.length := (List.dropWhile_sublist _).length_le

/-- C5: for every input text shorter than 50 characters, and every
`max_terms` value, `extract_keywords` returns the empty list (in every
library configuration). -/
theorem extract_keywords_short_text (stop : List Str) (sklearnAvailable : Bool)
    (tfidf : Except Str (List (Str × Rat))) (text : Str) (maxFeatures : Nat)
    (h : text.length < 50) :
    extract_keywords stop sklearnAvailable tfidf text maxFeatures = [] := by
  unfold extract_keywords
  rw [if_pos (Or.inr (lt_of_le_of_lt (pyStrip_length_le text) h))]

/-- Witness for C5 at a concrete 9-character text. -/
theorem extract_keywords_short_text_witness :
    (str "tiny page").length < 50 ∧
      extract_keywords fallbackStopwords false (.error (str "e"))
        (str "tiny page") 25 = [] :=
  ⟨by decide, extract_keywords_short_text _ _ _ _ _ (by decide)⟩

/-- C7: the content extractor returns the empty string whenever the fetch or
the parse raises, and its result never exceeds 10000 characters. -/
theorem extract_content_failsafe_and_bounded
    (fetch soupText : Str → Except Str Str) (url : Str) :
    (∀ e, fetch url = .error e → extract_content fetch soupText url = []) ∧
    (∀ html e, fetch url = .ok html → soupText html = .error e →
      extract_content fetch soupText url = []) ∧
    (extract_content fetch soupText url).length ≤ 10000 := by
  refine ⟨?_, ?_, ?_⟩
  · intro e he
    simp [extract_content, he]
  · intro html e hf hs
    simp [extract_content, hf, hs]
  · unfold extract_content
    rcases hf : fetch url with e | html
    · simp
    · rcases hs : soupText html with e2 | mc
      · simp [hs]
      · simp only [hs]
        simpa using List.length_take_le 10000 (pyStrip (collapseWs mc))

/-- Witness for C7: a failing fetch yields the empty string; a successful
extraction is within the length bound. -/
theorem extract_content_failsafe_witness :
    extract_content (fun _ => .error (str "timeout")) (fun _ => .ok (str "x"))
        (str "u") = [] ∧
      (extract_content (fun _ => .ok (str "<html>"))
          (fun _ => .ok (str "hello world")) (str "u")).length ≤ 10000 :=
  ⟨(extract_content_failsafe_and_bounded _ _ _).1 _ rfl,
   (extract_content_failsafe_and_bounded _ _ _).2.2⟩

theorem setField_frame (r : RunRow) (f : Str) (v : Val) :
    (setField r f v).id = r.id ∧ (setField r f v).url = r.url ∧
      (setField r f v).started_at = r.started_at := by
  unfold setField
  split_ifs <;> exact ⟨rfl, rfl, rfl⟩

theorem applyUpdate_frame (kwargs : List (Str × Val)) (r : RunRow) :
    (applyUpdate r kwargs).id = r.id ∧ (applyUpdate r kwargs).url = r.url ∧
      (applyUpdate r kwargs).started_at = r.started_at := by
  unfold applyUpdate
  generalize (kwargs.filter fun kv => decide (kv.1 ∈ allowedFields)) = l
  induction l generalizing r with
  | nil => exact ⟨rfl, rfl, rfl⟩
  | cons kv rest ih =>
    simp only [List.foldl_cons]
    obtain ⟨h1, h2, h3⟩ := ih (setField r kv.1 kv.2)
    obtain ⟨g1, g2, g3⟩ := setField_frame r kv.1 kv.2
    exact ⟨h1.trans g1, h2.trans g2, h3.trans g3⟩

theorem filter_allowed_idem (kwargs : List (Str × Val)) :
    ((kwargs.filter fun kv => decide (kv.1 ∈ allowedFields)).filter
        fun kv => decide (kv.1 ∈ allowedFields)) =
      kwargs.filter fun kv => decide (kv.1 ∈ allowedFields) := by
  rw [List.filter_filter]
  simp

theorem applyUpdate_filter (r : RunRow) (kwargs : List (Str × Val)) :
    applyUpdate r (kwargs.filter fun kv => decide (kv.1 ∈ allowedFields)) =
      applyUpdate r kwargs := by
  unfold applyUpdate
  rw [filter_allowed_idem]

/-- C9: `update_run` is insensitive to arguments naming non-allow-listed
fields (they are silently dropped), and every row keeps its id, url and
started_at under every update. -/
theorem update_run_allowlist_frame (db : DB) (runId : Nat)
    (kwargs : List (Str × Val)) :
    update_run db runId kwargs =
      update_run db runId (kwargs.filter fun kv => decide (kv.1 ∈ allowedFields)) ∧
    List.Forall₂
      (fun r r2 => r2.id = r.id ∧ r2.url = r.url ∧ r2.started_at = r.started_at)
      db.runs (update_run db runId kwargs).runs := by
  constructor
  · unfold update_run
    by_cases h0 : kwargs = []
    · subst h0; simp
    · rw [if_neg h0]
      by_cases h1 : (kwargs.filter fun kv => decide (kv.1 ∈ allowedFields)) = []
      · rw [if_pos h1, h1]
        simp
      · rw [if_neg h1, if_neg h1, filter_allowed_idem, if_neg h1]
        simp only [applyUpdate_filter]
  · unfold update_run
    split_ifs with h0 h1
    · exact List.forall₂_same.2 fun r _ => ⟨rfl, rfl, rfl⟩
    · exact List.forall₂_same.2 fun r _ => ⟨rfl, rfl, rfl⟩
    · refine List.forall₂_map_right_iff.2 (List.forall₂_same.2 fun r _ => ?_)
      by_cases h : r.id = runId
      · rw [if_pos h]
        exact applyUpdate_frame kwargs r
      · rw [if_neg h]
        exact ⟨rfl, rfl, rfl⟩

/-- Witness for C9: patching a non-allow-listed field (`url`) leaves the
store unchanged. -/
theorem update_run_allowlist_frame_witness :
    update_run runningDB 1 [(str "url", Val.text (str "evil"))] = runningDB := by
  have h := (update_run_allowlist_frame runningDB 1
    [(str "url", Val.text (str "evil"))]).1
  rw [h]
  decide

theorem analyzeBI_ne_nil (urlparse : Str → Except Str (Str × Str)) (url : Str) :
    analyze_url_for_business_intelligence urlparse url ≠ [] := by
  unfold analyze_url_for_business_intelligence
  rcases h : urlparse (lowerStr url) with e | pair
  · simp only [h]
    decide
  · obtain ⟨netloc, path⟩ := pair
    simp only [h]
    intro hc
    exact absurd (List.append_eq_nil.1 hc).2 (by decide)

theorem step1Content_ne_nil (env : Env) (url : Str) : step1Content env url ≠ [] := by
  simp only [step1Content]
  by_cases h : extract_content env.fetch env.soupText url = [] ∨
      (pyStrip (extract_content env.fetch env.soupText url)).length < 50
  · rw [if_pos h]
    exact analyzeBI_ne_nil _ _
  · rw [if_neg h]
    exact fun hc => h (Or.inl hc)

/-- C10: the URL business-intelligence synthesizer always returns a non-empty
string (the generic paragraph when its own body raises), so the content value
computed by step 1 of `run_analysis` is never empty — the guard of the
`'Could not extract or analyze content'` failure branch is false on every
environment, making that branch unreachable. -/
theorem fallback_synthesizer_nonempty_branch_unreachable
    (urlparse : Str → Except Str (Str × Str)) (url : Str) (env : Env)
    (url2 : Str) :
    analyze_url_for_business_intelligence urlparse url ≠ [] ∧
      step1Content env url2 ≠ [] :=
  ⟨analyzeBI_ne_nil urlparse url, step1Content_ne_nil env url2⟩

/-- Witness for C10 at a concrete parser and environment. -/
theorem fallback_synthesizer_nonempty_witness :
    analyze_url_for_business_intelligence (fun _ => .error (str "boom"))
        (str "https://acmeroofing.example/services") ≠ [] ∧
      step1Content noKeywordEnv (str "https://example.com") ≠ [] :=
  fallback_synthesizer_nonempty_branch_unreachable _ _ _ _

/-- C3 (amended): the results endpoint answers not-found exactly for run ids
absent from the store; an existing but unfinished run is answered with its
results payload. -/
theorem results_not_found_iff_absent (db : DB) (rid : Nat) :
    endpoint_get_run_results db rid = .notFound ↔ findRun db rid = none := by
  unfold endpoint_get_run_results get_run_results
  rcases h : findRun db rid with _ | run
  · simp [h]
  · simp [h]

/-- Counterexample for C3 as stated: a run that exists with status
`'running'` (unfinished) is answered with a payload, not with not-found. -/
theorem results_running_run_payload_cex :
    (∃ r, findRun runningDB 1 = some r ∧ r.status = Val.text (str "running")) ∧
      endpoint_get_run_results runningDB 1 ≠ ApiResponse.notFound := by
  constructor
  · exact ⟨_, rfl, rfl⟩
  · decide

/-- Witness for the amended C3 at an absent id. -/
theorem results_not_found_iff_absent_witness :
    endpoint_get_run_results runningDB 2 = ApiResponse.notFound ↔
      findRun runningDB 2 = none :=
  results_not_found_iff_absent runningDB 2


/-- C4 (amended to non-empty text): with the static-table fallback loaded,
whenever the best word-set-overlap score of a non-empty text is below 0.3,
a text containing `tech`, `software` or `ai` resolves to Computers &
Electronics (id 5) at confidence 0.6, and a text matching no keyword family
resolves to News (id 16) at confidence 0.4.  Resolution is a total function
of the text, so it never throws and always yields a confidence. -/
theorem resolver_fallback_families (text : Str) (hne : text ≠ [])
    (hlow : (overlapScan staticTrendsCategories
      (firstOccs (splitWs (lowerStr text)))).2.1 < mkRat 3 10) :
    (containsAnyWord (lowerStr text) [str "tech", str "software", str "ai"] = true →
      resolve_trends_category staticTrendsCategories text =
        (str "Computers & Electronics", 5, mkRat 3 5)) ∧
    (familyMatch (lowerStr text) = false →
      resolve_trends_category staticTrendsCategories text =
        (str "News", 16, mkRat 2 5)) := by
  have hor : ¬(text = [] ∨ staticTrendsCategories = []) := by
    rintro (h | h)
    · exact hne h
    · exact absurd h (by decide)
  constructor
  · intro h3
    have htech : containsAnyWord (lowerStr text) techFamily = true := by
      obtain ⟨w, hw, hp⟩ := List.any_eq_true.1 h3
      refine List.any_eq_true.2 ⟨w, ?_, hp⟩
      fin_cases hw <;> decide
    unfold resolve_trends_category
    rw [if_neg hor, if_pos hlow, if_pos htech]
  · intro hfam
    simp only [familyMatch, Bool.or_eq_false_iff] at hfam
    obtain ⟨⟨⟨ha, hb⟩, hc⟩, hd⟩ := hfam
    unfold resolve_trends_category
    rw [if_neg hor, if_pos hlow, if_neg (by simp [ha]), if_neg (by simp [hb]),
      if_neg (by simp [hc]), if_neg (by simp [hd])]

/-- Counterexample for C4 as stated: the empty text has best overlap score
below 0.3 and matches no keyword family, yet resolves through the early guard
to News at confidence 0.0, not 0.4. -/
theorem resolver_empty_text_cex :
    (overlapScan staticTrendsCategories
        (firstOccs (splitWs (lowerStr [])))).2.1 < mkRat 3 10 ∧
      familyMatch (lowerStr []) = false ∧
      resolve_trends_category staticTrendsCategories [] = (str "News", 16, 0) ∧
      (0 : Rat) ≠ mkRat 2 5 := by
  exact ⟨by decide, by decide, by decide, by decide⟩

/-- Witness for the amended C4: the testable-property text of the spec
resolves through the tech family. -/
theorem resolver_fallback_families_witness :
    (str "ai software technology" ≠ ([] : Str)) ∧
      (overlapScan staticTrendsCategories
        (firstOccs (splitWs (lowerStr (str "ai software technology"))))).2.1 <
          mkRat 3 10 ∧
      resolve_trends_category staticTrendsCategories
          (str "ai software technology") =
        (str "Computers & Electronics", 5, mkRat 3 5) :=
  ⟨by decide, by decide,
   (resolver_fallback_families _ (by decide) (by decide)).1 (by decide)⟩

theorem mem_firstOccsAux (a : Str) (l : List Str) : ∀ seen : List Str,
    a ∈ firstOccsAux l seen ↔ a ∈ l ∧ a ∉ seen := by
  induction l with
  | nil =>
    intro seen
    simp [firstOccsAux]
  | cons w ws ih =>
    intro seen
    unfold firstOccsAux
    by_cases h : w ∈ seen
    · rw [if_pos h, ih seen]
      simp only [List.mem_cons]
      constructor
      · rintro ⟨h1, h2⟩
        exact ⟨Or.inr h1, h2⟩
      · rintro ⟨rfl | h1, h2⟩
        · exact absurd h h2
        · exact ⟨h1, h2⟩
    · rw [if_neg h]
      simp only [List.mem_cons, ih (w :: seen)]
      constructor
      · rintro (rfl | ⟨h1, h2⟩)
        · exact ⟨Or.inl rfl, h⟩
        · exact ⟨Or.inr h1, fun hs => h2 (Or.inr hs)⟩
      · rintro ⟨rfl | h1, h2⟩
        · exact Or.inl rfl
        · by_cases haw : a = w
          · exact Or.inl haw
          · exact Or.inr ⟨h1, fun hs => hs.elim haw h2⟩

theorem mem_firstOccs {a : Str} {l : List Str} : a ∈ firstOccs l ↔ a ∈ l := by
  unfold firstOccs
  rw [mem_firstOccsAux]
  simp

theorem freqPairs_mem {ws : List Str} {p : Str × Nat} (hp : p ∈ freqPairs ws) :
    p.1 ∈ ws ∧ p.2 = ws.count p.1 := by
  obtain ⟨w, hw, rfl⟩ := List.mem_map.1 hp
  exact ⟨mem_firstOccs.1 hw, rfl⟩

theorem freqPairs_of_mem {ws : List Str} {u : Str} (hu : u ∈ ws) :
    (u, ws.count u) ∈ freqPairs ws :=
  List.mem_map.2 ⟨u, mem_firstOccs.2 hu, rfl⟩

theorem mkRat_self_pos {n : Nat} (h : 0 < n) : mkRat (n : Int) n = 1 := by
  rw [Rat.mkRat_eq_div]
  push_cast
  exact div_self (Nat.cast_ne_zero.2 h.ne')

theorem freqScoreEntry_some {K : Nat} {p : Str × Nat} {e : Str × Rat}
    (h : freqScoreEntry K p = some e) :
    e.1 = p.1 ∧ e.2 = mkRat p.2 K ∧ mkRat 1 20 < e.2 := by
  unfold freqScoreEntry at h
  split at h
  case isTrue hc =>
    rw [Option.some_inj] at h
    subst h
    exact ⟨rfl, rfl, hc⟩
  case isFalse hc => exact absurd h (by simp)

/-- C6: under the frequency-based fallback, whenever the text yields at least
one surviving (non-stopword, length-three-plus) token and at least one entry
is requested, the first returned entry bears score exactly 1 and is a term of
maximal frequency, the list is ordered by descending term frequency, and every
returned score exceeds the 0.05 threshold. -/
theorem extract_frequency_ranking (stop : List Str) (text : Str) (maxF : Nat)
    (hmax : 0 < maxF) (hw : filteredWords stop text ≠ []) :
    (∃ w, (extractWithFrequency stop text maxF).head? = some (w, (1 : Rat)) ∧
        ∀ u ∈ filteredWords stop text,
          (filteredWords stop text).count u ≤ (filteredWords stop text).count w) ∧
      (extractWithFrequency stop text maxF).Pairwise
        (fun a b => (filteredWords stop text).count b.1 ≤
          (filteredWords stop text).count a.1) ∧
      ∀ e ∈ extractWithFrequency stop text maxF, mkRat 1 20 < e.2 := by
  obtain ⟨m, rfl⟩ : ∃ m, maxF = m + 1 :=
    ⟨maxF - 1, (Nat.succ_pred_eq_of_pos hmax).symm⟩
  have key : ∀ sorted : List (Str × Nat),
      sorted.Perm (freqPairs (filteredWords stop text)) →
      List.Sorted byFreqDesc sorted →
      (∃ w, ((sorted.take (m + 1)).filterMap
            (freqScoreEntry (maxFreqOf sorted))).head? = some (w, (1 : Rat)) ∧
          ∀ u ∈ filteredWords stop text,
            (filteredWords stop text).count u ≤ (filteredWords stop text).count w) ∧
        ((sorted.take (m + 1)).filterMap
            (freqScoreEntry (maxFreqOf sorted))).Pairwise
          (fun a b => (filteredWords stop text).count b.1 ≤
            (filteredWords stop text).count a.1) ∧
        ∀ e ∈ (sorted.take (m + 1)).filterMap (freqScoreEntry (maxFreqOf sorted)),
          mkRat 1 20 < e.2 := by
    intro sorted hperm hsort
    have helem : ∀ p ∈ sorted, p.1 ∈ filteredWords stop text ∧
        p.2 = (filteredWords stop text).count p.1 := fun p hp =>
      freqPairs_mem (hperm.subset hp)
    cases sorted with
    | nil =>
      obtain ⟨u, hu⟩ := List.exists_mem_of_ne_nil _ hw
      have hnil : freqPairs (filteredWords stop text) = [] := hperm.symm.eq_nil
      have hmem := freqPairs_of_mem hu
      rw [hnil] at hmem
      exact absurd hmem (List.not_mem_nil _)
    | cons p0 tail =>
      obtain ⟨hp0w, hp0c⟩ := helem p0 (List.mem_cons_self _ _)
      have hp0pos : 0 < p0.2 := by
        rw [hp0c]
        exact Nat.pos_of_ne_zero fun h0 => (List.count_eq_zero.1 h0) hp0w
      have hone : mkRat (p0.2 : Int) p0.2 = 1 := mkRat_self_pos hp0pos
      have hg0 : freqScoreEntry p0.2 p0 = some (p0.1, 1) := by
        unfold freqScoreEntry
        rw [hone, if_pos (by decide : mkRat 1 20 < (1 : Rat))]
      have hhead : ((p0 :: tail).take (m + 1)).filterMap
            (freqScoreEntry (maxFreqOf (p0 :: tail))) =
          (p0.1, (1 : Rat)) :: ((tail.take m).filterMap (freqScoreEntry p0.2)) := by
        simp only [maxFreqOf, List.take_succ_cons, List.filterMap_cons, hg0]
      refine ⟨⟨p0.1, ?_, ?_⟩, ?_, ?_⟩
      · rw [hhead]
        rfl
      · intro u hu
        have hins : (u, (filteredWords stop text).count u) ∈ p0 :: tail :=
          hperm.mem_iff.2 (freqPairs_of_mem hu)
        rcases List.mem_cons.1 hins with heq | htail
        · have h2 : (filteredWords stop text).count u = p0.2 :=
            congrArg Prod.snd heq
          rw [h2, hp0c]
        · have hr := List.rel_of_sorted_cons hsort _ htail
          exact hp0c ▸ hr
      · have htakeP : ((p0 :: tail).take (m + 1)).Pairwise byFreqDesc :=
          List.Pairwise.sublist (List.take_sublist _ _) hsort
        have htakeC : ((p0 :: tail).take (m + 1)).Pairwise
            (fun a b => (filteredWords stop text).count b.1 ≤
              (filteredWords stop text).count a.1) := by
          refine htakeP.imp_of_mem ?_
          intro a b ha hb hr
          have ha2 := helem a ((List.take_sublist _ _).subset ha)
          have hb2 := helem b ((List.take_sublist _ _).subset hb)
          rw [← ha2.2, ← hb2.2]
          exact hr
        refine List.pairwise_filterMap.2 (htakeC.imp ?_)
        intro a b hab x hx y hy
        have hxs := freqScoreEntry_some (Option.mem_def.1 hx)
        have hys := freqScoreEntry_some (Option.mem_def.1 hy)
        rw [hxs.1, hys.1]
        exact hab
      · intro e he
        obtain ⟨a, _, hsome⟩ := List.mem_filterMap.1 he
        exact (freqScoreEntry_some hsome).2.2
  exact key (List.insertionSort byFreqDesc (freqPairs (filteredWords stop text)))
    (List.perm_insertionSort _ _) (List.sorted_insertionSort _ _)

/-- Witness for C6 at a concrete repeated-term document. -/
theorem extract_frequency_ranking_witness :
    (0 < 25) ∧ filteredWords [] (str "apple apple banana") ≠ [] ∧
      (∃ w, (extractWithFrequency [] (str "apple apple banana") 25).head? =
          some (w, (1 : Rat)) ∧
        ∀ u ∈ filteredWords [] (str "apple apple banana"),
          (filteredWords [] (str "apple apple banana")).count u ≤
            (filteredWords [] (str "apple apple banana")).count w) :=
  ⟨by decide, by decide,
   (extract_frequency_ranking [] (str "apple apple banana") 25 (by decide)
     (by decide)).1⟩

theorem applyUpdate_fail (r : RunRow) (e : Str) :
    applyUpdate r [(str "status", Val.text (str "failed")),
        (str "notes", Val.text e)] =
      { r with status := Val.text (str "failed"), notes := Val.text e } := rfl

theorem applyUpdate_cat (r : RunRow) (cname : Str) (cid : Int) (yid : Str) :
    applyUpdate r [(str "detected_category_name", Val.text cname),
        (str "detected_category_id", Val.int cid),
        (str "youtube_category_id", Val.text yid)] =
      { r with
        detected_category_name := Val.text cname
        detected_category_id := Val.int cid
        youtube_category_id := Val.text yid } := rfl

theorem applyUpdate_complete (r : RunRow) (ft : Int) (note : Str) :
    applyUpdate r [(str "status", Val.text (str "completed")),
        (str "finished_at", Val.int ft), (str "notes", Val.text note)] =
      { r with
        status := Val.text (str "completed")
        finished_at := Val.int ft
        notes := Val.text note } := rfl

theorem find?_map_update (l : List RunRow) (rid : Nat)
    (kwargs : List (Str × Val)) :
    ((l.map fun r => if r.id = rid then applyUpdate r kwargs else r).find?
        fun r => r.id == rid) =
      (l.find? fun r => r.id == rid).map fun r => applyUpdate r kwargs := by
  induction l with
  | nil => rfl
  | cons r l ih =>
    by_cases h : r.id = rid
    · simp only [List.map_cons, if_pos h]
      rw [List.find?_cons_of_pos _ (by simp [(applyUpdate_frame kwargs r).1, h]),
        List.find?_cons_of_pos _ (by simp [h])]
      rfl
    · simp only [List.map_cons, if_neg h]
      rw [List.find?_cons_of_neg _ (by simp [h]),
        List.find?_cons_of_neg _ (by simp [h]), ih]

theorem findRun_update_run (db : DB) (rid : Nat) (kwargs : List (Str × Val)) :
    findRun (update_run db rid kwargs) rid =
      (findRun db rid).map fun r => applyUpdate r kwargs := by
  unfold update_run findRun
  split_ifs with h0 h1
  · have ha : ∀ r, applyUpdate r kwargs = r := fun r => by
      unfold applyUpdate
      rw [h0]
      rfl
    cases hf : db.runs.find? fun r => r.id == rid <;> simp [hf, ha]
  · have ha : ∀ r, applyUpdate r kwargs = r := fun r => by
      unfold applyUpdate
      rw [h1]
      rfl
    cases hf : db.runs.find? fun r => r.id == rid <;> simp [hf, ha]
  · exact find?_map_update _ _ _

theorem id_le_foldr_max (r : RunRow) (l : List RunRow) (h : r ∈ l) :
    r.id ≤ l.foldr (fun r2 m => max r2.id m) 0 := by
  induction l with
  | nil => cases h
  | cons a l ih =>
    rcases List.mem_cons.1 h with rfl | h2
    · exact le_max_left _ _
    · exact le_trans (ih h2) (le_max_right _ _)

theorem mem_id_lt_nextFreshId {db : DB} {r : RunRow} (h : r ∈ db.runs) :
    r.id < nextFreshId db :=
  Nat.lt_succ_of_le (id_le_foldr_max r db.runs h)

theorem findRun_create_run (db : DB) (url : Str) (now : Int) :
    findRun (create_run db url now).2 (nextFreshId db) =
      some (createRunRow (nextFreshId db) url now) := by
  unfold create_run findRun
  rw [List.find?_append]
  have h1 : (db.runs.find? fun r => r.id == nextFreshId db) = none :=
    List.find?_eq_none.2 fun r hr => by
      simp only [beq_iff_eq]
      exact (mem_id_lt_nextFreshId hr).ne
  rw [h1, Option.none_or]
  simp [createRunRow]

theorem findRun_orchUpdate {s : OState} (h : findRun s.db s.runId = some s.row)
    (kwargs : List (Str × Val)) :
    findRun (orchUpdate s kwargs).db (orchUpdate s kwargs).runId =
      some (orchUpdate s kwargs).row := by
  show findRun (update_run s.db s.runId kwargs) s.runId =
    some (applyUpdate s.row kwargs)
  rw [findRun_update_run, h]
  rfl

theorem findRun_save_keywords (db : DB) (rid : Nat) (kws : List (Str × Rat))
    (x : Nat) : findRun (save_keywords db rid kws) x = findRun db x := rfl

theorem analyzeTrendsLoop_runs (envB : Nat → Except Str BatchData) (rid : Nat) :
    ∀ (bs : List (List Str)) (i : Nat) (db : DB),
      (analyzeTrendsLoop envB rid i bs db).runs = db.runs := by
  intro bs
  induction bs with
  | nil =>
    intro i db
    rfl
  | cons b rest ih =>
    intro i db
    unfold analyzeTrendsLoop
    rcases henv : envB i with e | data
    · simp only [henv]
      exact ih _ _
    · simp only [henv]
      exact ih _ _

theorem findRun_analyze_trends (envB : Nat → Except Str BatchData) (rid : Nat)
    (kws : List Str) (cid : Int) (db : DB) (x : Nat) :
    findRun (analyze_trends envB rid kws cid db) x = findRun db x := by
  unfold findRun analyze_trends
  rw [analyzeTrendsLoop_runs]

theorem run_analysis_find (env : Env) (db : DB) (url : Str) :
    findRun (run_analysis env db url).db (run_analysis env db url).runId =
      some (run_analysis env db url).row := by
  have h0 : findRun ((create_run db url env.createTime).2) (nextFreshId db) =
      some (createRunRow (nextFreshId db) url env.createTime) :=
    findRun_create_run db url env.createTime
  simp only [run_analysis]
  rw [if_neg (step1Content_ne_nil env url)]
  split
  · exact findRun_orchUpdate h0 _
  · split
    · exact findRun_orchUpdate h0 _
    · split
      · exact findRun_orchUpdate h0 _
      · split
        · refine findRun_orchUpdate ?_ _
          dsimp only
          rw [findRun_analyze_trends]
          exact findRun_orchUpdate h0 _
        · refine findRun_orchUpdate ?_ _
          exact findRun_orchUpdate h0 _

theorem lifecycle_pair (r0 f : RunRow)
    (h0s : r0.status = Val.text (str "running"))
    (h0f : r0.finished_at = Val.null)
    (hfs : f.status = Val.text (str "failed"))
    (hff : f.finished_at = Val.null) :
    List.Chain' (fun a b => statusRank a.status ≤ statusRank b.status) [r0, f] ∧
    (∀ r ∈ ([r0, f] : List RunRow).dropLast, ¬ isTerminalStatus r.status) ∧
    (∀ r ∈ ([r0, f] : List RunRow),
      (r.finished_at ≠ Val.null ↔ r.status = Val.text (str "completed"))) := by
  refine ⟨List.chain'_pair.2 ?_, ?_, ?_⟩
  · rw [h0s, hfs]
    decide
  · intro r hr
    have hd : ([r0, f] : List RunRow).dropLast = [r0] := rfl
    rw [hd, List.mem_singleton] at hr
    subst hr
    rw [isTerminalStatus, h0s]
    decide
  · intro r hr
    rcases List.mem_cons.1 hr with rfl | hr2
    · rw [h0f, h0s]
      decide
    · rcases List.mem_cons.1 hr2 with rfl | hr3
      · rw [hff, hfs]
        decide
      · exact absurd hr3 (List.not_mem_nil _)

theorem lifecycle_triple (r0 c d : RunRow) (n : Int)
    (h0s : r0.status = Val.text (str "running"))
    (h0f : r0.finished_at = Val.null)
    (hcs : c.status = Val.text (str "running"))
    (hcf : c.finished_at = Val.null)
    (hds : d.status = Val.text (str "completed"))
    (hdf : d.finished_at = Val.int n) :
    List.Chain' (fun a b => statusRank a.status ≤ statusRank b.status)
      [r0, c, d] ∧
    (∀ r ∈ ([r0, c, d] : List RunRow).dropLast, ¬ isTerminalStatus r.status) ∧
    (∀ r ∈ ([r0, c, d] : List RunRow),
      (r.finished_at ≠ Val.null ↔ r.status = Val.text (str "completed"))) := by
  refine ⟨List.chain'_cons.2 ⟨?_, List.chain'_pair.2 ?_⟩, ?_, ?_⟩
  · rw [h0s, hcs]
  · rw [hcs, hds]
    decide
  · intro r hr
    have hd : ([r0, c, d] : List RunRow).dropLast = [r0, c] := rfl
    rw [hd] at hr
    rcases List.mem_cons.1 hr with rfl | hr2
    · rw [isTerminalStatus, h0s]
      decide
    · rw [List.mem_singleton] at hr2
      subst hr2
      rw [isTerminalStatus, hcs]
      decide
  · intro r hr
    rcases List.mem_cons.1 hr with rfl | hr2
    · rw [h0f, h0s]
      decide
    · rcases List.mem_cons.1 hr2 with rfl | hr3
      · rw [hcf, hcs]
        decide
      · rcases List.mem_cons.1 hr3 with rfl | hr4
        · rw [hdf, hds]
          exact ⟨fun _ => rfl, fun _ h => Val.noConfusion h⟩
        · exact absurd hr4 (List.not_mem_nil _)

/-- C1 (amended): along every execution the stored status only moves forward
(created directly as `running`, then at most one transition to a terminal
status, after which no update occurs — the trace records the run row after
creation and after each update), and `finished_at` is non-null exactly when
the status is `completed`: the failure branches leave `finished_at` NULL. -/
theorem run_status_monotone_finished_iff_completed (env : Env) (db : DB)
    (url : Str) :
    List.Chain' (fun a b => statusRank a.status ≤ statusRank b.status)
      (run_analysis env db url).trace ∧
    (∀ r ∈ (run_analysis env db url).trace.dropLast,
      ¬ isTerminalStatus r.status) ∧
    (∀ r ∈ (run_analysis env db url).trace,
      (r.finished_at ≠ Val.null ↔ r.status = Val.text (str "completed"))) := by
  simp only [run_analysis]
  rw [if_neg (step1Content_ne_nil env url)]
  split
  · simp only [orchUpdate, applyUpdate_fail, List.singleton_append]
    exact lifecycle_pair _ _ rfl rfl rfl rfl
  · split
    · simp only [orchUpdate, applyUpdate_fail, List.singleton_append]
      exact lifecycle_pair _ _ rfl rfl rfl rfl
    · split
      · simp only [orchUpdate, applyUpdate_fail, List.singleton_append]
        exact lifecycle_pair _ _ rfl rfl rfl rfl
      · split
        · simp only [orchUpdate, applyUpdate_cat, applyUpdate_complete,
            List.singleton_append, List.cons_append, List.nil_append]
          exact lifecycle_triple _ _ _ env.finishTime rfl rfl rfl rfl rfl rfl
        · simp only [orchUpdate, applyUpdate_cat, applyUpdate_complete,
            List.singleton_append, List.cons_append, List.nil_append]
          exact lifecycle_triple _ _ _ env.finishTime rfl rfl rfl rfl rfl rfl

/-- Counterexample for C1 as stated: a concrete run reaches the terminal
status `failed` while its `finished_at` stays NULL, refuting that
`finished_at` is non-null for every terminal status. -/
theorem run_failed_finished_null_cex :
    (run_analysis noKeywordEnv emptyDB (str "https://example.com")).row.status =
        Val.text (str "failed") ∧
      (run_analysis noKeywordEnv emptyDB
          (str "https://example.com")).row.finished_at = Val.null := by
  exact ⟨by decide, by decide⟩

/-- Witness for the amended C1 at a concrete failing environment. -/
theorem run_status_monotone_witness :
    List.Chain' (fun a b => statusRank a.status ≤ statusRank b.status)
      (run_analysis noKeywordEnv emptyDB (str "https://example.com")).trace ∧
    (∀ r ∈ (run_analysis noKeywordEnv emptyDB
        (str "https://example.com")).trace.dropLast,
      ¬ isTerminalStatus r.status) ∧
    (∀ r ∈ (run_analysis noKeywordEnv emptyDB (str "https://example.com")).trace,
      (r.finished_at ≠ Val.null ↔ r.status = Val.text (str "completed"))) :=
  run_status_monotone_finished_iff_completed noKeywordEnv emptyDB
    (str "https://example.com")

/-- C2: `run_analysis` always returns the id assigned at run creation and the
stored row stays consistent with it; an exception raised at either modelled
point of steps 2–5 (the keyword insert, the classification patch) is caught
at the top level, the run is marked `failed` with the exception text verbatim
in `notes`, and the same id is still returned. -/
theorem run_analysis_returns_id_and_catches (env : Env) (db : DB) (url : Str) :
    (run_analysis env db url).runId = (create_run db url env.createTime).1 ∧
    findRun (run_analysis env db url).db (run_analysis env db url).runId =
      some (run_analysis env db url).row ∧
    (∀ e, env.excSaveKeywords = some e →
      extract_keywords env.stopwordList env.sklearnAvailable env.tfidfScores
          (step1Content env url) 25 ≠ [] →
      (run_analysis env db url).row.status = Val.text (str "failed") ∧
        (run_analysis env db url).row.notes = Val.text e) ∧
    (∀ e, env.excSaveKeywords = none → env.excUpdateCategory = some e →
      extract_keywords env.stopwordList env.sklearnAvailable env.tfidfScores
          (step1Content env url) 25 ≠ [] →
      (run_analysis env db url).row.status = Val.text (str "failed") ∧
        (run_analysis env db url).row.notes = Val.text e) := by
  refine ⟨?_, run_analysis_find env db url, ?_, ?_⟩
  · simp only [run_analysis]
    rw [if_neg (step1Content_ne_nil env url)]
    split
    · rfl
    · split
      · rfl
      · split
        · rfl
        · split
          · rfl
          · rfl
  · intro e hS hk
    simp only [run_analysis]
    rw [if_neg (step1Content_ne_nil env url), if_neg hk, hS]
    exact ⟨rfl, rfl⟩
  · intro e hS hU hk
    simp only [run_analysis]
    rw [if_neg (step1Content_ne_nil env url), if_neg hk, hS, hU]
    exact ⟨rfl, rfl⟩

set_option maxRecDepth 40000 in
/-- Witness for C2: a concrete save-stage exception is caught, stored
verbatim, and the id of the created run is returned. -/
theorem run_analysis_catches_witness :
    saveExcEnv.excSaveKeywords = some (str "database is locked") ∧
      extract_keywords saveExcEnv.stopwordList saveExcEnv.sklearnAvailable
        saveExcEnv.tfidfScores
        (step1Content saveExcEnv (str "https://x.com")) 25 ≠ [] ∧
      (run_analysis saveExcEnv emptyDB (str "https://x.com")).row.status =
        Val.text (str "failed") ∧
      (run_analysis saveExcEnv emptyDB (str "https://x.com")).row.notes =
        Val.text (str "database is locked") :=
  ⟨rfl, by decide,
   (run_analysis_returns_id_and_catches saveExcEnv emptyDB
       (str "https://x.com")).2.2.1 _ rfl (by decide)⟩

theorem chunksOf5_flatten : ∀ l : List Str, (chunksOf5 l).flatten = l
  | [] => rfl
  | [_] => rfl
  | [_, _] => rfl
  | [_, _, _] => rfl
  | [_, _, _, _] => rfl
  | a :: b :: c :: d :: e :: rest => by
    show ([a, b, c, d, e] :: chunksOf5 rest).flatten = _
    rw [List.flatten_cons, chunksOf5_flatten rest]
    rfl

theorem chunksOf5_length_le : ∀ l : List Str, ∀ b ∈ chunksOf5 l, b.length ≤ 5
  | [] => by
    intro b hb
    exact absurd hb (List.not_mem_nil _)
  | [a] => by
    intro b hb
    simp only [chunksOf5, List.mem_singleton] at hb
    subst hb
    exact (by decide : (1 : Nat) ≤ 5)
  | [a, a2] => by
    intro b hb
    simp only [chunksOf5, List.mem_singleton] at hb
    subst hb
    exact (by decide : (2 : Nat) ≤ 5)
  | [a, a2, a3] => by
    intro b hb
    simp only [chunksOf5, List.mem_singleton] at hb
    subst hb
    exact (by decide : (3 : Nat) ≤ 5)
  | [a, a2, a3, a4] => by
    intro b hb
    simp only [chunksOf5, List.mem_singleton] at hb
    subst hb
    exact (by decide : (4 : Nat) ≤ 5)
  | a :: a2 :: a3 :: a4 :: a5 :: rest => by
    intro b hb
    rcases List.mem_cons.1 hb with rfl | hb2
    · exact (by decide : (5 : Nat) ≤ 5)
    · exact chunksOf5_length_le rest b hb2

theorem analyzeTrendsLoop_interest_mono (envB : Nat → Except Str BatchData)
    (rid : Nat) :
    ∀ (bs : List (List Str)) (i : Nat) (db : DB) (row : Nat × Str × Str × Int),
      row ∈ db.trends_interest →
      row ∈ (analyzeTrendsLoop envB rid i bs db).trends_interest := by
  intro bs
  induction bs with
  | nil =>
    intro i db row h
    exact h
  | cons b rest ih =>
    intro i db row h
    unfold analyzeTrendsLoop
    rcases henv : envB i with e | data
    · simp only [henv]
      exact ih _ _ _ h
    · simp only [henv]
      exact ih _ _ _ (List.mem_append_left _ h)

theorem analyzeTrendsLoop_related_mono (envB : Nat → Except Str BatchData)
    (rid : Nat) :
    ∀ (bs : List (List Str)) (i : Nat) (db : DB)
      (row : Nat × Str × Str × Str × Int),
      row ∈ db.trends_related_queries →
      row ∈ (analyzeTrendsLoop envB rid i bs db).trends_related_queries := by
  intro bs
  induction bs with
  | nil =>
    intro i db row h
    exact h
  | cons b rest ih =>
    intro i db row h
    unfold analyzeTrendsLoop
    rcases henv : envB i with e | data
    · simp only [henv]
      exact ih _ _ _ h
    · simp only [henv]
      exact ih _ _ _ (List.mem_append_left _ h)

theorem analyzeTrendsLoop_interest_insert (envB : Nat → Except Str BatchData)
    (rid : Nat) :
    ∀ (bs : List (List Str)) (i0 : Nat) (db : DB) (j : Nat)
      (hj : j < bs.length) (data : BatchData), envB (i0 + j) = .ok data →
      ∀ row ∈ batchInterestRows rid (bs.get ⟨j, hj⟩) data.interest,
        row ∈ (analyzeTrendsLoop envB rid i0 bs db).trends_interest := by
  intro bs
  induction bs with
  | nil =>
    intro i0 db j hj
    exact absurd hj (by simp)
  | cons b rest ih =>
    intro i0 db j hj data hok row hrow
    cases j with
    | zero =>
      rw [Nat.add_zero] at hok
      unfold analyzeTrendsLoop
      simp only [hok]
      exact analyzeTrendsLoop_interest_mono envB rid rest (i0 + 1) _ row
        (List.mem_append_right _ hrow)
    | succ j2 =>
      unfold analyzeTrendsLoop
      have hok2 : envB (i0 + 1 + j2) = .ok data := by
        have harith : i0 + 1 + j2 = i0 + (j2 + 1) := by omega
        rw [harith]
        exact hok
      rcases henv : envB i0 with e | data2
      · simp only [henv]
        exact ih (i0 + 1) _ j2 (Nat.lt_of_succ_lt_succ hj) data hok2 row hrow
      · simp only [henv]
        exact ih (i0 + 1) _ j2 (Nat.lt_of_succ_lt_succ hj) data hok2 row hrow

theorem analyzeTrendsLoop_related_insert (envB : Nat → Except Str BatchData)
    (rid : Nat) :
    ∀ (bs : List (List Str)) (i0 : Nat) (db : DB) (j : Nat)
      (hj : j < bs.length) (data : BatchData), envB (i0 + j) = .ok data →
      ∀ row ∈ batchRelatedRows rid data.related,
        row ∈ (analyzeTrendsLoop envB rid i0 bs db).trends_related_queries := by
  intro bs
  induction bs with
  | nil =>
    intro i0 db j hj
    exact absurd hj (by simp)
  | cons b rest ih =>
    intro i0 db j hj data hok row hrow
    cases j with
    | zero =>
      rw [Nat.add_zero] at hok
      unfold analyzeTrendsLoop
      simp only [hok]
      exact analyzeTrendsLoop_related_mono envB rid rest (i0 + 1) _ row
        (List.mem_append_right _ hrow)
    | succ j2 =>
      unfold analyzeTrendsLoop
      have hok2 : envB (i0 + 1 + j2) = .ok data := by
        have harith : i0 + 1 + j2 = i0 + (j2 + 1) := by omega
        rw [harith]
        exact hok
      rcases henv : envB i0 with e | data2
      · simp only [henv]
        exact ih (i0 + 1) _ j2 (Nat.lt_of_succ_lt_succ hj) data hok2 row hrow
      · simp only [henv]
        exact ih (i0 + 1) _ j2 (Nat.lt_of_succ_lt_succ hj) data hok2 row hrow

theorem update_run_tables (db : DB) (rid : Nat) (kwargs : List (Str × Val)) :
    (update_run db rid kwargs).trends_interest = db.trends_interest ∧
      (update_run db rid kwargs).trends_related_queries =
        db.trends_related_queries := by
  unfold update_run
  split_ifs <;> exact ⟨rfl, rfl⟩

/-- C8: step 4 processes the terms of the top 7 keywords in batches of size
at most 5 covering them exactly; every batch whose pytrends call succeeds has
its interest and rising rows persisted in the final database regardless of
any other batch raising (per-batch catch), and the run still reaches status
`completed`. -/
theorem trends_batches_isolated (env : Env) (db : DB) (url : Str)
    (hk : extract_keywords env.stopwordList env.sklearnAvailable
      env.tfidfScores (step1Content env url) 25 ≠ [])
    (hS : env.excSaveKeywords = none) (hU : env.excUpdateCategory = none)
    (hP : env.pytrendsAvailable = true) :
    seedKeywordsOf env url =
      ((extract_keywords env.stopwordList env.sklearnAvailable env.tfidfScores
        (step1Content env url) 25).map Prod.fst).take 7 ∧
    (chunksOf5 (seedKeywordsOf env url)).flatten = seedKeywordsOf env url ∧
    (∀ b ∈ chunksOf5 (seedKeywordsOf env url), b.length ≤ 5) ∧
    (∀ (i : Nat) (hi : i < (chunksOf5 (seedKeywordsOf env url)).length)
        (data : BatchData), env.trendsBatch i = .ok data →
      (∀ row ∈ batchInterestRows (nextFreshId db)
          ((chunksOf5 (seedKeywordsOf env url)).get ⟨i, hi⟩) data.interest,
        row ∈ (run_analysis env db url).db.trends_interest) ∧
      (∀ row ∈ batchRelatedRows (nextFreshId db) data.related,
        row ∈ (run_analysis env db url).db.trends_related_queries)) ∧
    (run_analysis env db url).row.status = Val.text (str "completed") := by
  refine ⟨?_, chunksOf5_flatten _, chunksOf5_length_le _, ?_, ?_⟩
  · simp [seedKeywordsOf, List.map_take]
  · intro i hi data hok
    constructor
    · intro row hrow
      simp only [run_analysis]
      rw [if_neg (step1Content_ne_nil env url), if_neg hk]
      simp only [hS, hU]
      split
      · simp only [orchUpdate]
        rw [(update_run_tables _ _ _).1]
        exact analyzeTrendsLoop_interest_insert env.trendsBatch (nextFreshId db)
          (chunksOf5 (seedKeywordsOf env url)) 0 _ i hi data
          (by rw [Nat.zero_add]; exact hok) row hrow
      · next hcond => exact absurd hP hcond
    · intro row hrow
      simp only [run_analysis]
      rw [if_neg (step1Content_ne_nil env url), if_neg hk]
      simp only [hS, hU]
      split
      · simp only [orchUpdate]
        rw [(update_run_tables _ _ _).2]
        exact analyzeTrendsLoop_related_insert env.trendsBatch (nextFreshId db)
          (chunksOf5 (seedKeywordsOf env url)) 0 _ i hi data
          (by rw [Nat.zero_add]; exact hok) row hrow
      · next hcond => exact absurd hP hcond
  · simp only [run_analysis]
    rw [if_neg (step1Content_ne_nil env url), if_neg hk]
    simp only [hS, hU]
    split
    · rfl
    · rfl

set_option maxRecDepth 100000 in
/-- Witness for C8: with the first batch raising and the second succeeding,
the second batch's interest row is persisted and the run completes. -/
theorem trends_batches_isolated_witness :
    batchEnv.trendsBatch 0 = .error (str "rate limited") ∧
      (1, str "foxtrot", str "2025-01-01", (42 : Int)) ∈
        (run_analysis batchEnv emptyDB (str "https://x.com")).db.trends_interest ∧
      (run_analysis batchEnv emptyDB (str "https://x.com")).row.status =
        Val.text (str "completed") := by
  have h := trends_batches_isolated batchEnv emptyDB (str "https://x.com")
    (by decide) rfl rfl rfl
  refine ⟨rfl, ?_, h.2.2.2.2⟩
  exact (h.2.2.2.1 1 (by decide) _ rfl).1 _ (by decide)
